import Mathlib

/-
Verification of the trading-decision core of the tradeclaw repository
(src/agent_core.py) against its natural-language specification.

The embedding models:
  * the persisted paper portfolio (`Portfolio`, `init_portfolio`,
    `save_portfolio` effects folded into the executor's result),
  * the trade executor `execute_paper_trade`,
  * the tool-dispatch loop and the per-symbol decision cycle of
    `run_trading_agent` together with the batch loop of `__main__`.

Python floats are modelled as rationals (`ℚ`); the Python dict holding a
decision is modelled as an association list over `PyVal` (JSON scalar
values), preserving the dynamic field lookups (`KeyError` on a missing
field is the `none` result of `extractFields`, which the executor's
top-level `except` turns into a reported format error with no mutation).
Division in `ℚ` totalises Python's `/`; every theorem touching the
price therefore assumes `0 < price`, matching a successful ticker fetch.
-/

namespace TradeClaw

/-- A JSON scalar value as it appears in the model's decision object. -/
inductive PyVal where
  | str (s : String)
  | num (q : ℚ)
deriving Repr, DecidableEq

/-- Using a value where Python expects a string (`.upper()`, `.split`):
succeeds only on a string, anything else raises into the outer handler. -/
def pyStr : PyVal → Option String
  | .str s => some s
  | .num _ => none

/-- Python `float(x)`: succeeds on a number; a non-numeric value raises
into the outer handler (decisions in this development carry numeric
amounts, so `float` on a numeric string is not exercised). -/
def pyFloat : PyVal → Option ℚ
  | .num q => some q
  | .str _ => none

/-- `d[k]` on a decision dict: first binding wins, `none` is `KeyError`. -/
def dictGet (d : List (String × PyVal)) (k : String) : Option PyVal :=
  (d.find? (fun p => p.1 == k)).map (·.2)

/-- The persisted paper portfolio: `{"USDT": cash, "holdings": {...}}`.
The holdings dict is an insertion-ordered association list. -/
structure Portfolio where
  usdt : ℚ
  holdings : List (String × ℚ)
deriving Repr, DecidableEq

/-- `portfolio["holdings"].get(coin, 0)`. -/
def getHolding (h : List (String × ℚ)) (k : String) : ℚ :=
  match h.find? (fun p => p.1 == k) with
  | some p => p.2
  | none => 0

/-- `portfolio["holdings"][coin] = v`: update in place if the key exists
(keeping its position, as a Python dict does), else append. -/
def setHolding (h : List (String × ℚ)) (k : String) (v : ℚ) :
    List (String × ℚ) :=
  match h with
  | [] => [(k, v)]
  | p :: rest => if p.1 == k then (k, v) :: rest else p :: setHolding rest k v

/-- Python `s.upper()` on the ASCII action tokens, as a kernel-computable
character map (Lean's `String.toUpper` recurses on byte positions and
does not reduce definitionally). -/
def pyUpper (s : String) : String := ⟨s.data.map Char.toUpper⟩

/-- `symbol.split('/')[0]`, e.g. `"BTC/USDT" ↦ "BTC"`: the characters up
to the first slash (the whole string when there is none, as in Python). -/
def baseCoin (symbol : String) : String :=
  ⟨symbol.data.takeWhile (fun c => c ≠ '/')⟩

/-- The distinguishable results of one `execute_paper_trade` call, read
off the message it prints/pushes. -/
inductive TradeOutcome where
  | hold
  | buyExecuted (qty amount : ℚ)
  | insufficientFunds
  | sellExecuted (qty amount : ℚ)
  | insufficientHoldings
  | noAction
  | formatError
deriving Repr, DecidableEq

/-- Result of one executor call: the in-memory portfolio at the end,
whether `save_portfolio` was reached, and the reported outcome. -/
structure ExecResult where
  portfolio : Portfolio
  saved : Bool
  outcome : TradeOutcome
deriving Repr, DecidableEq

/-- Field extraction at the top of `execute_paper_trade`:
`symbol`, `action.upper()`, `float(amount_usdt)`, `reason` (the reason is
only interpolated into messages, but its lookup can still raise). -/
def extractFields (d : List (String × PyVal)) : Option (String × String × ℚ) := do
  let sym ← dictGet d "symbol" >>= pyStr
  let act ← dictGet d "action" >>= pyStr
  let amt ← dictGet d "amount_usdt" >>= pyFloat
  let _reason ← dictGet d "reason"
  pure (sym, pyUpper act, amt)

/-- The branch logic of `execute_paper_trade` after field extraction,
with the already-uppercased action. `stored` is the portfolio read back
from disk by `load_portfolio`. -/
def executeTyped (symbol action : String) (amount_usdt current_price : ℚ)
    (stored : Portfolio) : ExecResult :=
  if action = "HOLD" ∨ amount_usdt ≤ 0 then
    ⟨stored, false, .hold⟩
  else
    let coin_amount := amount_usdt / current_price
    let base_coin := baseCoin symbol
    if action = "BUY" then
      if stored.usdt ≥ amount_usdt then
        ⟨⟨stored.usdt - amount_usdt,
          setHolding stored.holdings base_coin
            (getHolding stored.holdings base_coin + coin_amount)⟩,
         true, .buyExecuted coin_amount amount_usdt⟩
      else
        ⟨stored, true, .insufficientFunds⟩
    else if action = "SELL" then
      let current_holdings := getHolding stored.holdings base_coin
      -- [HOTFIX] slippage clamp: if coin_amount > current_holdings,
      -- sell the whole holding and recompute the realized USDT value.
      let coin_amount2 :=
        if current_holdings < coin_amount then current_holdings else coin_amount
      let amount_usdt2 :=
        if current_holdings < coin_amount then current_holdings * current_price
        else amount_usdt
      if current_holdings ≥ coin_amount2 ∧ current_holdings > 0 then
        ⟨⟨stored.usdt + amount_usdt2,
          setHolding stored.holdings base_coin
            (getHolding stored.holdings base_coin - coin_amount2)⟩,
         true, .sellExecuted coin_amount2 amount_usdt2⟩
      else
        ⟨stored, true, .insufficientHoldings⟩
    else
      -- action other than BUY/SELL/HOLD: falls through with msg = "",
      -- still reaches save_portfolio.
      ⟨stored, true, .noAction⟩

/-- `execute_paper_trade(decision_json)` with the successfully fetched
current price and the on-disk portfolio as explicit inputs. A failed
field extraction is the `except` branch: error reported, no mutation,
no save. -/
def execute_paper_trade (decision : List (String × PyVal))
    (current_price : ℚ) (stored : Portfolio) : ExecResult :=
  match extractFields decision with
  | none => ⟨stored, false, .formatError⟩
  | some (symbol, action, amount_usdt) =>
    executeTyped symbol action amount_usdt current_price stored

/-- A well-formed decision object, as the system prompt requests it. -/
def mkDecision (symbol action : String) (amount_usdt : ℚ) (reason : String) :
    List (String × PyVal) :=
  [("symbol", .str symbol), ("action", .str action),
   ("amount_usdt", .num amount_usdt), ("reason", .str reason)]

theorem extract_mkDecision (s a : String) (q : ℚ) (r : String) :
    extractFields (mkDecision s a q r) = some (s, pyUpper a, q) := rfl

theorem execute_mkDecision (s a : String) (q : ℚ) (r : String)
    (price : ℚ) (p : Portfolio) :
    execute_paper_trade (mkDecision s a q r) price p =
      executeTyped s (pyUpper a) q price p := rfl

/-- `initial_state` written by `init_portfolio` on first use:
$10,000 USDT and no holdings. -/
def initial_state : Portfolio := ⟨10000, []⟩

/-- `init_portfolio()`: the portfolio file (`none` = absent) after the
call, and whether the initial state was written. -/
def init_portfolio (file : Option Portfolio) : Portfolio × Bool :=
  match file with
  | none => (initial_state, true)
  | some p => (p, false)

/-- The store's load operation as the spec describes it: `init_portfolio`
followed by `load_portfolio`. Returns the portfolio read, the resulting
file state, and whether this call initialized the file. -/
def storeLoad (file : Option Portfolio) :
    Portfolio × Option Portfolio × Bool :=
  match init_portfolio file with
  | (p, didInit) => (p, some p, didInit)

/-- One tool call emitted by the model, with its already-parsed JSON
argument object. -/
structure ToolCall where
  id : String
  name : String
  arguments : List (String × PyVal)
deriving Repr, DecidableEq

/-- One `role: tool` message appended to the conversation. -/
structure ToolMessage where
  tool_call_id : String
  name : String
  content : String
deriving Repr, DecidableEq

/-- A Python exception escaping `run_trading_agent` (caught per coin by
the `__main__` loop). -/
inductive PyError where
  /-- `NameError`: the loop body read the local `result` before any
  branch assigned it (a tool call whose name matched no branch). -/
  | nameErrorResultUnbound
deriving Repr, DecidableEq

/-- The tool-dispatch loop of `run_trading_agent`: for each requested
call, in order, assign `result` by branching on the tool name, then
append a tool message carrying `result`. The `Option String` argument is
the current value of the local `result` (`none` = not yet assigned);
a call matching neither branch leaves `result` untouched, so the first
such call with `result` unassigned raises `NameError`, and a later one
silently reuses the previous call's result. The handlers are the
external news-search and price-fetch collaborators. -/
def dispatchCalls (news price : Option PyVal → String) :
    List ToolCall → Option String → List ToolMessage →
    Except PyError (List ToolMessage)
  | [], _, msgs => .ok msgs
  | tc :: rest, result, msgs =>
    if tc.name = "search_crypto_news" then
      dispatchCalls news price rest (some (news (dictGet tc.arguments "query")))
        (msgs ++ [⟨tc.id, tc.name, news (dictGet tc.arguments "query")⟩])
    else if tc.name = "get_crypto_price" then
      dispatchCalls news price rest (some (price (dictGet tc.arguments "symbol")))
        (msgs ++ [⟨tc.id, tc.name, price (dictGet tc.arguments "symbol")⟩])
    else
      match result with
      | none => .error .nameErrorResultUnbound
      | some r =>
        dispatchCalls news price rest (some r) (msgs ++ [⟨tc.id, tc.name, r⟩])

/-- How one `run_trading_agent` cycle ends, as observed at the
`__main__` loop. -/
inductive CycleOutcome where
  /-- the decision parsed and `execute_paper_trade` ran -/
  | executed (o : TradeOutcome)
  /-- `json.JSONDecodeError` on the final answer: the raw text is
  printed for diagnostics and the portfolio is untouched -/
  | invalidDecisionFormat (raw : String)
  /-- an exception escaped the cycle and was caught by `__main__` -/
  | criticalError (e : PyError)
deriving Repr, DecidableEq

/-- External inputs of one cycle: the tool calls the model requested on
its first turn, the final answer text, the result of `json.loads` on it
(`none` = not valid JSON), and the price the executor resolves. -/
structure CycleInput where
  toolCalls : List ToolCall
  finalText : String
  parsed : Option (List (String × PyVal))
  price : ℚ

/-- One `run_trading_agent(symbol)` cycle over the portfolio file:
initialize the file if absent, dispatch the requested tool calls, then
parse the final answer and hand it to `execute_paper_trade`. The file
is rewritten only when the executor reaches `save_portfolio`. -/
def runCycle (news price : Option PyVal → String) (inp : CycleInput)
    (file : Option Portfolio) : Option Portfolio × CycleOutcome :=
  match init_portfolio file with
  | (p0, _) =>
    match dispatchCalls news price inp.toolCalls none [] with
    | .error e => (some p0, .criticalError e)
    | .ok _msgs =>
      match inp.parsed with
      | none => (some p0, .invalidDecisionFormat inp.finalText)
      | some d =>
        match execute_paper_trade d inp.price p0 with
        | r => (if r.saved then some r.portfolio else some p0, .executed r.outcome)

/-- The `__main__` batch loop: one cycle per target coin, each wrapped
in a `try/except` that reports a critical error and continues with the
next coin. -/
def runBatch (news price : Option PyVal → String) :
    List CycleInput → Option Portfolio →
    Option Portfolio × List CycleOutcome
  | [], file => (file, [])
  | inp :: rest, file =>
    match runCycle news price inp file with
    | (file1, out) =>
      match runBatch news price rest file1 with
      | (file2, outs) => (file2, out :: outs)

/-! ### Helper lemmas about the holdings map and the executor branches -/

theorem getHolding_setHolding_self (h : List (String × ℚ)) (k : String)
    (v : ℚ) : getHolding (setHolding h k v) k = v := by
  induction h with
  | nil => simp [setHolding, getHolding]
  | cons p rest ih =>
    by_cases hk : p.1 == k
    · simp [setHolding, hk, getHolding]
    · simp only [setHolding, hk, if_false, Bool.false_eq_true]
      simpa [getHolding, hk] using ih

theorem mem_setHolding (h : List (String × ℚ)) (k : String) (v : ℚ)
    (x : String × ℚ) (hx : x ∈ setHolding h k v) : x = (k, v) ∨ x ∈ h := by
  induction h with
  | nil => simpa [setHolding] using hx
  | cons p rest ih =>
    by_cases hk : p.1 == k
    · simp only [setHolding, hk, if_true] at hx
      rcases List.mem_cons.mp hx with h1 | h1
      · exact .inl h1
      · exact .inr (List.mem_cons_of_mem _ h1)
    · simp only [setHolding, hk, if_false, Bool.false_eq_true] at hx
      rcases List.mem_cons.mp hx with h1 | h1
      · exact .inr (h1 ▸ List.mem_cons_self _ _)
      · rcases ih h1 with h2 | h2
        · exact .inl h2
        · exact .inr (List.mem_cons_of_mem _ h2)

theorem getHolding_nonneg (h : List (String × ℚ))
    (hn : ∀ x ∈ h, 0 ≤ x.2) (k : String) : 0 ≤ getHolding h k := by
  unfold getHolding
  cases hf : h.find? (fun p => p.1 == k) with
  | none => simp
  | some p => exact hn p (List.mem_of_find?_eq_some hf)

theorem executeTyped_hold (s a : String) (q price : ℚ) (p : Portfolio)
    (h : a = "HOLD" ∨ q ≤ 0) : executeTyped s a q price p = ⟨p, false, .hold⟩ := by
  simp only [executeTyped]
  rw [if_pos h]

theorem executeTyped_buy_ok (s : String) (q price : ℚ) (p : Portfolio)
    (hq : 0 < q) (hc : p.usdt ≥ q) :
    executeTyped s "BUY" q price p =
      ⟨⟨p.usdt - q, setHolding p.holdings (baseCoin s)
          (getHolding p.holdings (baseCoin s) + q / price)⟩, true,
        .buyExecuted (q / price) q⟩ := by
  simp [executeTyped, not_le.mpr hq, hc]

theorem executeTyped_buy_reject (s : String) (q price : ℚ) (p : Portfolio)
    (hq : 0 < q) (hc : ¬ p.usdt ≥ q) :
    executeTyped s "BUY" q price p = ⟨p, true, .insufficientFunds⟩ := by
  simp [executeTyped, not_le.mpr hq, hc]

theorem executeTyped_sell_clamped (s : String) (q price : ℚ) (p : Portfolio)
    (hq : 0 < q)
    (hover : getHolding p.holdings (baseCoin s) < q / price)
    (hpos : 0 < getHolding p.holdings (baseCoin s)) :
    executeTyped s "SELL" q price p =
      ⟨⟨p.usdt + getHolding p.holdings (baseCoin s) * price,
        setHolding p.holdings (baseCoin s) 0⟩, true,
        .sellExecuted (getHolding p.holdings (baseCoin s))
          (getHolding p.holdings (baseCoin s) * price)⟩ := by
  simp [executeTyped, not_le.mpr hq, hover, hpos, sub_self]

theorem executeTyped_sell_noclamp (s : String) (q price : ℚ) (p : Portfolio)
    (hq : 0 < q)
    (hover : ¬ getHolding p.holdings (baseCoin s) < q / price)
    (hpos : 0 < getHolding p.holdings (baseCoin s)) :
    executeTyped s "SELL" q price p =
      ⟨⟨p.usdt + q, setHolding p.holdings (baseCoin s)
          (getHolding p.holdings (baseCoin s) - q / price)⟩, true,
        .sellExecuted (q / price) q⟩ := by
  simp [executeTyped, not_le.mpr hq, hover, hpos, not_lt.mp hover]

theorem executeTyped_sell_reject (s : String) (q price : ℚ) (p : Portfolio)
    (hq : 0 < q) (hpos : ¬ 0 < getHolding p.holdings (baseCoin s)) :
    executeTyped s "SELL" q price p = ⟨p, true, .insufficientHoldings⟩ := by
  simp only [executeTyped]
  rw [if_neg (by simp [not_le.mpr hq])]
  simp
  exact fun _ => not_lt.mp hpos

theorem executeTyped_noAction (s a : String) (q price : ℚ) (p : Portfolio)
    (hq : 0 < q) (hh : a ≠ "HOLD") (hb : a ≠ "BUY") (hs : a ≠ "SELL") :
    executeTyped s a q price p = ⟨p, true, .noAction⟩ := by
  simp [executeTyped, hh, hb, hs, not_le.mpr hq]

/-! ### Claim theorems -/

/-- Claim C1: for every SELL decision whose computed base-asset quantity
`amount / price` exceeds the strictly positive current holding, the
executor clamps the executed quantity to exactly the full pre-trade
holding, recomputes the realized quote amount as clamped quantity times
current price, succeeds (the clamp precedes the insufficiency check),
and leaves a post-trade holding of exactly 0. -/
theorem sell_clamp_liquidates (s a r : String) (q price : ℚ) (p : Portfolio)
    (hact : pyUpper a = "SELL") (hprice : 0 < price)
    (hpos : 0 < getHolding p.holdings (baseCoin s))
    (hover : getHolding p.holdings (baseCoin s) < q / price) :
    execute_paper_trade (mkDecision s a q r) price p =
      ⟨⟨p.usdt + getHolding p.holdings (baseCoin s) * price,
        setHolding p.holdings (baseCoin s) 0⟩, true,
        .sellExecuted (getHolding p.holdings (baseCoin s))
          (getHolding p.holdings (baseCoin s) * price)⟩ ∧
    getHolding (execute_paper_trade (mkDecision s a q r) price p).portfolio.holdings
      (baseCoin s) = 0 := by
  have hq : 0 < q :=
    (mul_pos hpos hprice).trans ((lt_div_iff₀ hprice).mp hover)
  have hmain := executeTyped_sell_clamped s q price p hq hover hpos
  rw [execute_mkDecision, hact, hmain]
  exact ⟨rfl, getHolding_setHolding_self p.holdings (baseCoin s) 0⟩

/-- Witness for C1, the spec's clamped-SELL scenario: holdings 0.02 BTC,
price 40000, requested amount 1000 (wants 0.025 BTC) ⇒ sell all 0.02 BTC
for 800, leaving cash 9800 and 0 BTC. -/
theorem sell_clamp_liquidates_witness :
    (pyUpper "SELL" = "SELL" ∧ (0:ℚ) < 40000 ∧
      (0:ℚ) < getHolding [("BTC", 1/50)] (baseCoin "BTC/USDT") ∧
      getHolding [("BTC", 1/50)] (baseCoin "BTC/USDT") < 1000 / 40000) ∧
    execute_paper_trade (mkDecision "BTC/USDT" "SELL" 1000 "r") 40000
        ⟨9000, [("BTC", 1/50)]⟩ =
      ⟨⟨9800, [("BTC", 0)]⟩, true, .sellExecuted (1/50) 800⟩ := by
  have hG : getHolding [("BTC", (1/50 : ℚ))] (baseCoin "BTC/USDT") = 1/50 := rfl
  have h := sell_clamp_liquidates "BTC/USDT" "SELL" "r" 1000 40000
    ⟨9000, [("BTC", 1/50)]⟩ rfl (by norm_num)
    (by rw [hG]; norm_num) (by rw [hG]; norm_num)
  refine ⟨⟨rfl, by norm_num, by rw [hG]; norm_num, by rw [hG]; norm_num⟩, ?_⟩
  rw [h.1, hG]
  have hS : setHolding [("BTC", (1/50 : ℚ))] (baseCoin "BTC/USDT") 0 =
      [("BTC", 0)] := rfl
  rw [hS]
  norm_num

/-- Claim C2 (amended): for every SELL decision with positive amount on
a symbol whose base-asset holding is exactly 0 (including assets absent
from the holdings map), the executor reports InsufficientHoldings and
the portfolio is unchanged. -/
theorem sell_zero_holdings_rejected (s a r : String) (q price : ℚ)
    (p : Portfolio) (hact : pyUpper a = "SELL") (hq : 0 < q)
    (_hprice : 0 < price)
    (hzero : getHolding p.holdings (baseCoin s) = 0) :
    execute_paper_trade (mkDecision s a q r) price p =
      ⟨p, true, .insufficientHoldings⟩ := by
  rw [execute_mkDecision, hact]
  exact executeTyped_sell_reject s q price p hq (by rw [hzero]; exact lt_irrefl 0)

/-- Witness for C2: a SELL of 100 USDT worth of ETH with no ETH held is
rejected as InsufficientHoldings, and the portfolio is unchanged. -/
theorem sell_zero_holdings_rejected_witness :
    (pyUpper "SELL" = "SELL" ∧ (0:ℚ) < 100 ∧ (0:ℚ) < 2000 ∧
      getHolding ([] : List (String × ℚ)) (baseCoin "ETH/USDT") = 0) ∧
    execute_paper_trade (mkDecision "ETH/USDT" "SELL" 100 "r") 2000
        ⟨10000, []⟩ = ⟨⟨10000, []⟩, true, .insufficientHoldings⟩ :=
  ⟨⟨rfl, by norm_num, by norm_num, rfl⟩,
    sell_zero_holdings_rejected "ETH/USDT" "SELL" "r" 100 2000 ⟨10000, []⟩
      rfl (by norm_num) (by norm_num) rfl⟩

/-- Counterexample to C2 as stated: a SELL decision with amount 0 on a
symbol with zero holdings takes the HOLD branch of the executor (a
notification-only result), so no InsufficientHoldings is reported. -/
theorem sell_zero_amount_not_insufficient :
    (execute_paper_trade (mkDecision "BTC/USDT" "SELL" 0 "r") 50000
        ⟨10000, []⟩).outcome = .hold ∧
    (execute_paper_trade (mkDecision "BTC/USDT" "SELL" 0 "r") 50000
        ⟨10000, []⟩).outcome ≠ .insufficientHoldings := by
  have h : execute_paper_trade (mkDecision "BTC/USDT" "SELL" 0 "r") 50000
      ⟨10000, []⟩ = ⟨⟨10000, []⟩, false, .hold⟩ := by
    rw [execute_mkDecision]
    exact executeTyped_hold "BTC/USDT" (pyUpper "SELL") 0 50000 ⟨10000, []⟩
      (.inr le_rfl)
  rw [h]
  exact ⟨rfl, by decide⟩

/-- Claim C3: a BUY with positive amount is rejected as
InsufficientFunds with the portfolio unchanged when cash < amount, and
otherwise debits cash by exactly the amount and credits the base-asset
holding by exactly amount / price. -/
theorem buy_execution (s a r : String) (q price : ℚ) (p : Portfolio)
    (hact : pyUpper a = "BUY") (hq : 0 < q) (_hprice : 0 < price) :
    (p.usdt < q →
      execute_paper_trade (mkDecision s a q r) price p =
        ⟨p, true, .insufficientFunds⟩) ∧
    (q ≤ p.usdt →
      execute_paper_trade (mkDecision s a q r) price p =
        ⟨⟨p.usdt - q, setHolding p.holdings (baseCoin s)
            (getHolding p.holdings (baseCoin s) + q / price)⟩, true,
          .buyExecuted (q / price) q⟩) := by
  rw [execute_mkDecision, hact]
  exact ⟨fun hlt => executeTyped_buy_reject s q price p hq (not_le.mpr hlt),
    fun hle => executeTyped_buy_ok s q price p hq hle⟩

/-- Witness for C3, the spec's BUY scenario: from cash 10000 and no
holdings, a BUY of 1000 at price 50000 yields cash 9000 and 0.02 BTC. -/
theorem buy_execution_witness :
    (pyUpper "BUY" = "BUY" ∧ (0:ℚ) < 1000 ∧ (0:ℚ) < 50000 ∧
      (1000:ℚ) ≤ 10000) ∧
    execute_paper_trade (mkDecision "BTC/USDT" "BUY" 1000 "r") 50000
        ⟨10000, []⟩ =
      ⟨⟨9000, [("BTC", 1/50)]⟩, true, .buyExecuted (1/50) 1000⟩ := by
  refine ⟨⟨rfl, by norm_num, by norm_num, by norm_num⟩, ?_⟩
  have h := (buy_execution "BTC/USDT" "BUY" "r" 1000 50000 ⟨10000, []⟩
    rfl (by norm_num) (by norm_num)).2 (by norm_num)
  rw [h]
  have hS : setHolding ([] : List (String × ℚ)) (baseCoin "BTC/USDT")
      (getHolding ([] : List (String × ℚ)) (baseCoin "BTC/USDT") + 1000 / 50000) =
      [("BTC", 0 + 1000 / 50000)] := rfl
  rw [hS]
  norm_num

/-- Claim C7: a decision with action HOLD, or with amount ≤ 0, performs
no portfolio mutation, persists nothing, and yields the
notification-only HOLD result, whatever the amount. -/
theorem hold_no_mutation (s a r : String) (q price : ℚ) (p : Portfolio)
    (h : pyUpper a = "HOLD" ∨ q ≤ 0) :
    execute_paper_trade (mkDecision s a q r) price p = ⟨p, false, .hold⟩ := by
  rw [execute_mkDecision]
  exact executeTyped_hold s (pyUpper a) q price p h

/-- Witness for C7: a HOLD with a huge positive amount leaves the
portfolio untouched and unsaved. -/
theorem hold_no_mutation_witness :
    (pyUpper "HOLD" = "HOLD" ∨ (999999:ℚ) ≤ 0) ∧
    execute_paper_trade (mkDecision "BTC/USDT" "HOLD" 999999 "r") 50000
        ⟨10000, [("BTC", 1/50)]⟩ =
      ⟨⟨10000, [("BTC", 1/50)]⟩, false, .hold⟩ :=
  ⟨.inl rfl,
    hold_no_mutation "BTC/USDT" "HOLD" "r" 999999 50000
      ⟨10000, [("BTC", 1/50)]⟩ (.inl rfl)⟩

/-- Claim C8: from any portfolio with nonnegative cash and nonnegative
holding quantities, every committed executor operation (BUY, SELL, HOLD
or a rejected trade) preserves nonnegative cash and nonnegative holding
quantities. -/
theorem invariant_preserved (s a r : String) (q price : ℚ) (p : Portfolio)
    (hcash : 0 ≤ p.usdt) (hhold : ∀ x ∈ p.holdings, 0 ≤ x.2)
    (hprice : 0 < price) :
    0 ≤ (execute_paper_trade (mkDecision s a q r) price p).portfolio.usdt ∧
    ∀ x ∈ (execute_paper_trade (mkDecision s a q r) price p).portfolio.holdings,
      0 ≤ x.2 := by
  rw [execute_mkDecision]
  generalize pyUpper a = act
  by_cases h0 : act = "HOLD" ∨ q ≤ 0
  · rw [executeTyped_hold s act q price p h0]
    exact ⟨hcash, hhold⟩
  · push_neg at h0
    obtain ⟨hh, hq⟩ := h0
    by_cases hb : act = "BUY"
    · subst hb
      by_cases hc : p.usdt ≥ q
      · rw [executeTyped_buy_ok s q price p hq hc]
        refine ⟨sub_nonneg.mpr hc, ?_⟩
        intro x hx
        rcases mem_setHolding _ _ _ x hx with h1 | h1
        · rw [h1]
          exact add_nonneg (getHolding_nonneg p.holdings hhold (baseCoin s))
            (div_nonneg hq.le hprice.le)
        · exact hhold x h1
      · rw [executeTyped_buy_reject s q price p hq hc]
        exact ⟨hcash, hhold⟩
    · by_cases hs : act = "SELL"
      · subst hs
        by_cases hpos : 0 < getHolding p.holdings (baseCoin s)
        · by_cases hover : getHolding p.holdings (baseCoin s) < q / price
          · rw [executeTyped_sell_clamped s q price p hq hover hpos]
            refine ⟨add_nonneg hcash (mul_nonneg hpos.le hprice.le), ?_⟩
            intro x hx
            rcases mem_setHolding _ _ _ x hx with h1 | h1
            · rw [h1]
            · exact hhold x h1
          · rw [executeTyped_sell_noclamp s q price p hq hover hpos]
            refine ⟨add_nonneg hcash hq.le, ?_⟩
            intro x hx
            rcases mem_setHolding _ _ _ x hx with h1 | h1
            · rw [h1]
              exact sub_nonneg.mpr (not_lt.mp hover)
            · exact hhold x h1
        · rw [executeTyped_sell_reject s q price p hq hpos]
          exact ⟨hcash, hhold⟩
      · rw [executeTyped_noAction s act q price p hq hh hb hs]
        exact ⟨hcash, hhold⟩

/-- Witness for C8: a successful BUY of 1000 at price 50000 from a
nonnegative portfolio keeps cash and every holding nonnegative. -/
theorem invariant_preserved_witness :
    ((0:ℚ) ≤ 10000 ∧ (∀ x ∈ ([] : List (String × ℚ)), (0:ℚ) ≤ x.2) ∧
      (0:ℚ) < 50000) ∧
    (0 ≤ (execute_paper_trade (mkDecision "BTC/USDT" "BUY" 1000 "r") 50000
        ⟨10000, []⟩).portfolio.usdt ∧
      ∀ x ∈ (execute_paper_trade (mkDecision "BTC/USDT" "BUY" 1000 "r") 50000
          ⟨10000, []⟩).portfolio.holdings, 0 ≤ x.2) :=
  ⟨⟨by norm_num, by simp, by norm_num⟩,
    invariant_preserved "BTC/USDT" "BUY" "r" 1000 50000 ⟨10000, []⟩
      (by norm_num) (by simp) (by norm_num)⟩

/-- Claim C10: every non-HOLD decision with positive amount, including a
BUY rejected for insufficient funds and a SELL rejected for insufficient
holdings, still reaches `save_portfolio`; on a rejected trade the state
written back equals the pre-trade portfolio. -/
theorem rejected_trade_saved_unchanged (s a r : String) (q price : ℚ)
    (p : Portfolio) (hact : pyUpper a ≠ "HOLD") (hq : 0 < q)
    (_hprice : 0 < price) :
    (execute_paper_trade (mkDecision s a q r) price p).saved = true ∧
    ((execute_paper_trade (mkDecision s a q r) price p).outcome =
        .insufficientFunds ∨
      (execute_paper_trade (mkDecision s a q r) price p).outcome =
        .insufficientHoldings →
      (execute_paper_trade (mkDecision s a q r) price p).portfolio = p) := by
  rw [execute_mkDecision]
  revert hact
  generalize pyUpper a = act
  intro hact
  by_cases hb : act = "BUY"
  · subst hb
    by_cases hc : p.usdt ≥ q
    · rw [executeTyped_buy_ok s q price p hq hc]
      exact ⟨rfl, fun hcon => by rcases hcon with h | h <;> cases h⟩
    · rw [executeTyped_buy_reject s q price p hq hc]
      exact ⟨rfl, fun _ => rfl⟩
  · by_cases hs : act = "SELL"
    · subst hs
      by_cases hpos : 0 < getHolding p.holdings (baseCoin s)
      · by_cases hover : getHolding p.holdings (baseCoin s) < q / price
        · rw [executeTyped_sell_clamped s q price p hq hover hpos]
          exact ⟨rfl, fun hcon => by rcases hcon with h | h <;> cases h⟩
        · rw [executeTyped_sell_noclamp s q price p hq hover hpos]
          exact ⟨rfl, fun hcon => by rcases hcon with h | h <;> cases h⟩
      · rw [executeTyped_sell_reject s q price p hq hpos]
        exact ⟨rfl, fun _ => rfl⟩
    · rw [executeTyped_noAction s act q price p hq hact hb hs]
      exact ⟨rfl, fun hcon => by rcases hcon with h | h <;> cases h⟩

/-- Witness for C10: a BUY of 20000 against cash 10000 is rejected, yet
the executor still saves, writing back the unchanged portfolio. -/
theorem rejected_trade_saved_unchanged_witness :
    (pyUpper "BUY" ≠ "HOLD" ∧ (0:ℚ) < 20000 ∧ (0:ℚ) < 50000) ∧
    ((execute_paper_trade (mkDecision "BTC/USDT" "BUY" 20000 "r") 50000
        ⟨10000, []⟩).saved = true ∧
      ((execute_paper_trade (mkDecision "BTC/USDT" "BUY" 20000 "r") 50000
          ⟨10000, []⟩).outcome = .insufficientFunds ∨
        (execute_paper_trade (mkDecision "BTC/USDT" "BUY" 20000 "r") 50000
            ⟨10000, []⟩).outcome = .insufficientHoldings →
        (execute_paper_trade (mkDecision "BTC/USDT" "BUY" 20000 "r") 50000
            ⟨10000, []⟩).portfolio = ⟨10000, []⟩)) :=
  ⟨⟨by decide, by norm_num, by norm_num⟩,
    rejected_trade_saved_unchanged "BTC/USDT" "BUY" "r" 20000 50000
      ⟨10000, []⟩ (by decide) (by norm_num) (by norm_num)⟩

/-- Claim C9: with no persisted state, the store's load initializes the
portfolio to cash 10000 with empty holdings and persists it before
returning; a second load with no intervening save returns the same state
and does not re-initialize. -/
theorem load_initializes_once :
    storeLoad none = (initial_state, some initial_state, true) ∧
    storeLoad (storeLoad none).2.1 = (initial_state, some initial_state, false) ∧
    initial_state = ⟨10000, []⟩ :=
  ⟨rfl, rfl, rfl⟩

theorem dispatchCalls_ok (news price : Option PyVal → String)
    (calls : List ToolCall)
    (hreg : ∀ tc ∈ calls, tc.name = "search_crypto_news" ∨
      tc.name = "get_crypto_price") :
    ∀ (st : Option String) (msgs : List ToolMessage),
      ∃ out, dispatchCalls news price calls st msgs = .ok out := by
  induction calls with
  | nil => exact fun st msgs => ⟨msgs, rfl⟩
  | cons tc rest ih =>
    intro st msgs
    have hrest := fun tc' h' => hreg tc' (List.mem_cons_of_mem _ h')
    rcases hreg tc (List.mem_cons_self _ _) with h | h
    · simp only [dispatchCalls, h, if_true, reduceIte]
      exact ih hrest _ _
    · simp only [dispatchCalls, h, reduceIte]
      exact ih hrest _ _

theorem runBatch_length (news price : Option PyVal → String)
    (inps : List CycleInput) (file : Option Portfolio) :
    (runBatch news price inps file).2.length = inps.length := by
  induction inps generalizing file with
  | nil => rfl
  | cons inp rest ih =>
    simp only [runBatch, List.length_cons]
    rw [← ih (runCycle news price inp file).1]

/-- Claim C4: when the final answer text of a cycle is not valid JSON,
the cycle reports InvalidDecisionFormat carrying the raw text, the
portfolio file is untouched, and a batch still attempts every remaining
symbol (one outcome per input). -/
theorem invalid_json_aborts_cycle (news price : Option PyVal → String)
    (inp : CycleInput) (p : Portfolio) (rest : List CycleInput)
    (hreg : ∀ tc ∈ inp.toolCalls, tc.name = "search_crypto_news" ∨
      tc.name = "get_crypto_price")
    (hparse : inp.parsed = none) :
    runCycle news price inp (some p) =
      (some p, .invalidDecisionFormat inp.finalText) ∧
    (runBatch news price (inp :: rest) (some p)).2 =
      .invalidDecisionFormat inp.finalText ::
        (runBatch news price rest (some p)).2 ∧
    (runBatch news price (inp :: rest) (some p)).2.length =
      rest.length + 1 := by
  obtain ⟨out, hout⟩ := dispatchCalls_ok news price inp.toolCalls hreg none []
  have hcycle : runCycle news price inp (some p) =
      (some p, .invalidDecisionFormat inp.finalText) := by
    simp only [runCycle, init_portfolio, hout, hparse]
  refine ⟨hcycle, ?_, ?_⟩
  · simp only [runBatch, hcycle]
  · rw [runBatch_length]
    simp

/-- Witness for C4: a cycle whose final text "not json" fails to parse
leaves the initialized portfolio file as is, reports the raw text, and a
one-element batch still yields one outcome. -/
theorem invalid_json_aborts_cycle_witness :
    ((∀ tc ∈ ([] : List ToolCall), tc.name = "search_crypto_news" ∨
        tc.name = "get_crypto_price") ∧
      (⟨[], "not json", none, 1⟩ : CycleInput).parsed = none) ∧
    (runCycle (fun _ => "n") (fun _ => "p") ⟨[], "not json", none, 1⟩
        (some initial_state) =
      (some initial_state, .invalidDecisionFormat "not json") ∧
    (runBatch (fun _ => "n") (fun _ => "p") [⟨[], "not json", none, 1⟩]
        (some initial_state)).2 =
      .invalidDecisionFormat "not json" ::
        (runBatch (fun _ => "n") (fun _ => "p") [] (some initial_state)).2 ∧
    (runBatch (fun _ => "n") (fun _ => "p") [⟨[], "not json", none, 1⟩]
        (some initial_state)).2.length = 0 + 1) :=
  ⟨⟨by simp, rfl⟩,
    invalid_json_aborts_cycle (fun _ => "n") (fun _ => "p")
      ⟨[], "not json", none, 1⟩ initial_state [] (by simp) rfl⟩

/-- Counterexample to C5 as stated: a turn whose single requested tool
call names an unregistered tool "get_weather" is fatal to the cycle (the
loop body reads the unassigned local `result`, raising `NameError`); no
error-string tool result is substituted. -/
theorem unknown_tool_fatal :
    runCycle (fun _ => "n") (fun _ => "p")
      ⟨[⟨"call_1", "get_weather", []⟩], "{}", none, 1⟩ (some initial_state) =
      (some initial_state, .criticalError .nameErrorResultUnbound) := rfl

/-- Claim C5 (amended): a requested call naming an unregistered tool
gets no substituted error string: when it is the first call of the turn
the dispatch raises `NameError`, which is fatal to that cycle (caught
only by the batch loop); when an earlier call has already assigned
`result`, the previous call's result is silently appended as the unknown
call's tool message instead. -/
theorem unknown_tool_dispatch (news price : Option PyVal → String)
    (tc : ToolCall) (rest : List ToolCall) (msgs : List ToolMessage)
    (h1 : tc.name ≠ "search_crypto_news")
    (h2 : tc.name ≠ "get_crypto_price") :
    dispatchCalls news price (tc :: rest) none msgs =
      .error .nameErrorResultUnbound ∧
    (∀ r : String, dispatchCalls news price (tc :: rest) (some r) msgs =
      dispatchCalls news price rest (some r)
        (msgs ++ [⟨tc.id, tc.name, r⟩])) ∧
    (∀ (fin : String) (parsed : Option (List (String × PyVal))) (pr : ℚ)
        (p : Portfolio),
      runCycle news price ⟨tc :: rest, fin, parsed, pr⟩ (some p) =
        (some p, .criticalError .nameErrorResultUnbound)) := by
  have herr : dispatchCalls news price (tc :: rest) none msgs =
      .error .nameErrorResultUnbound := by
    simp only [dispatchCalls, if_neg h1, if_neg h2]
  refine ⟨herr, fun r => ?_, fun fin parsed pr p => ?_⟩
  · simp only [dispatchCalls, if_neg h1, if_neg h2]
  · have herr2 : dispatchCalls news price (tc :: rest) none [] =
        .error .nameErrorResultUnbound := by
      simp only [dispatchCalls, if_neg h1, if_neg h2]
    simp only [runCycle, init_portfolio, herr2]

/-- Witness for C5: concrete dispatch of an unknown tool "get_weather":
fatal when first, reusing the stale result "prev" when second. -/
theorem unknown_tool_dispatch_witness :
    ((⟨"call_1", "get_weather", []⟩ : ToolCall).name ≠ "search_crypto_news" ∧
      (⟨"call_1", "get_weather", []⟩ : ToolCall).name ≠ "get_crypto_price") ∧
    (dispatchCalls (fun _ => "n") (fun _ => "p")
        [⟨"call_1", "get_weather", []⟩] none [] =
      .error .nameErrorResultUnbound ∧
    dispatchCalls (fun _ => "n") (fun _ => "p")
        [⟨"call_1", "get_weather", []⟩] (some "prev") [] =
      dispatchCalls (fun _ => "n") (fun _ => "p") [] (some "prev")
        ([] ++ [⟨"call_1", "get_weather", "prev"⟩])) :=
  ⟨⟨by decide, by decide⟩,
    (unknown_tool_dispatch (fun _ => "n") (fun _ => "p")
        ⟨"call_1", "get_weather", []⟩ [] [] (by decide) (by decide)).1,
    (unknown_tool_dispatch (fun _ => "n") (fun _ => "p")
        ⟨"call_1", "get_weather", []⟩ [] [] (by decide) (by decide)).2.1 "prev"⟩

theorem extractFields_eq_none (d : List (String × PyVal))
    (h : dictGet d "symbol" = none ∨ dictGet d "action" = none ∨
      dictGet d "amount_usdt" = none ∨ dictGet d "reason" = none) :
    extractFields d = none := by
  unfold extractFields
  rcases h with h | h | h | h <;> rw [h] <;>
    cases h1 : dictGet d "symbol" >>= pyStr <;>
    cases h2 : dictGet d "action" >>= pyStr <;>
    cases h3 : dictGet d "amount_usdt" >>= pyFloat <;>
    simp_all

/-- Counterexample to C6 as stated: a decision carrying all four fields
plus an extra fifth field "confidence" is executed as a normal BUY that
mutates the portfolio, not treated as a format error. -/
theorem extra_field_executes :
    (execute_paper_trade
        (mkDecision "BTC/USDT" "BUY" 1000 "r" ++ [("confidence", .num 9)])
        50000 ⟨10000, []⟩).outcome ≠ .formatError ∧
    (execute_paper_trade
        (mkDecision "BTC/USDT" "BUY" 1000 "r" ++ [("confidence", .num 9)])
        50000 ⟨10000, []⟩).portfolio.usdt = 9000 := by
  have he : execute_paper_trade
      (mkDecision "BTC/USDT" "BUY" 1000 "r" ++ [("confidence", PyVal.num 9)])
      50000 ⟨10000, []⟩ = executeTyped "BTC/USDT" "BUY" 1000 50000 ⟨10000, []⟩ :=
    rfl
  have h := executeTyped_buy_ok "BTC/USDT" 1000 50000 ⟨10000, []⟩
    (by norm_num) (by norm_num)
  rw [he, h]
  exact ⟨by decide, by norm_num⟩

/-- Claim C6 (amended): a decision consumed by the executor must contain
the four fields symbol, action, amount_usdt, reason; a decision missing
any of them is treated as a format error (reported, no portfolio
mutation, nothing persisted) rather than executed, while a decision with
an extra field is executed exactly as if the extra field were absent. -/
theorem decision_fields_contract (d : List (String × PyVal)) (price : ℚ)
    (p : Portfolio)
    (hmiss : dictGet d "symbol" = none ∨ dictGet d "action" = none ∨
      dictGet d "amount_usdt" = none ∨ dictGet d "reason" = none) :
    execute_paper_trade d price p = ⟨p, false, .formatError⟩ ∧
    ∀ (s a r : String) (q : ℚ) (k : String) (v : PyVal),
      execute_paper_trade (mkDecision s a q r ++ [(k, v)]) price p =
        execute_paper_trade (mkDecision s a q r) price p := by
  refine ⟨?_, fun s a r q k v => rfl⟩
  unfold execute_paper_trade
  rw [extractFields_eq_none d hmiss]

/-- Witness for C6: a decision object with only a symbol field is a
format error leaving the portfolio alone, and appending an extra field
to a complete decision changes nothing about its execution. -/
theorem decision_fields_contract_witness :
    (dictGet [("symbol", PyVal.str "BTC/USDT")] "symbol" = none ∨
      dictGet [("symbol", PyVal.str "BTC/USDT")] "action" = none ∨
      dictGet [("symbol", PyVal.str "BTC/USDT")] "amount_usdt" = none ∨
      dictGet [("symbol", PyVal.str "BTC/USDT")] "reason" = none) ∧
    (execute_paper_trade [("symbol", PyVal.str "BTC/USDT")] 50000
        ⟨10000, []⟩ = ⟨⟨10000, []⟩, false, .formatError⟩ ∧
    execute_paper_trade
        (mkDecision "BTC/USDT" "BUY" 1000 "r" ++ [("confidence", .num 9)])
        50000 ⟨10000, []⟩ =
      execute_paper_trade (mkDecision "BTC/USDT" "BUY" 1000 "r") 50000
        ⟨10000, []⟩) :=
  ⟨.inr (.inl rfl),
    (decision_fields_contract [("symbol", PyVal.str "BTC/USDT")] 50000
        ⟨10000, []⟩ (.inr (.inl rfl))).1,
    (decision_fields_contract [("symbol", PyVal.str "BTC/USDT")] 50000
        ⟨10000, []⟩ (.inr (.inl rfl))).2 "BTC/USDT" "BUY" "r" 1000
      "confidence" (.num 9)⟩

end TradeClaw
